import Mathlib

/-!
Shallow embedding of the uni-api gateway (`src/main.py`): the pydantic
request models, the payload translator (`process_request`'s pure payload
construction), the buffered provider client (`fetch_response`), and the
failover coordinator (`ModelRequestHandler.get_matching_providers`,
`request_model`, `try_all_providers`).

Modelling conventions:
- A Python `Optional` field is an `Option`; a JSON object field that may be
  absent is an `Option` field of a structure (`none` = key absent).
- Python `%` on integers with a positive divisor agrees with Lean's `Int`
  `%` (`Int.emod`): both return a value in `[0, n)`.
- The outcome of one provider attempt (`process_request`) is abstracted as
  an `Except String α` indexed by the position of the provider in the
  matching list; the buffered client `fetch_response` is embedded
  separately over an abstract transport outcome.
- The mutable `self.last_provider_index` is threaded explicitly: functions
  take the incoming cursor and return the final cursor in `SweepOutcome`.
-/

namespace UniApi

/-- `class ContentItem(BaseModel)`: one part of a structured message content. -/
structure ContentItem where
  type : String
  text : String
deriving DecidableEq, Inhabited

/-- `content: Union[str, List[ContentItem]]` of `class Message`. -/
inductive MessageContent where
  | str (s : String)
  | parts (items : List ContentItem)
deriving DecidableEq, Inhabited

/-- `class Message(BaseModel)`. -/
structure Message where
  role : String
  content : MessageContent
deriving DecidableEq, Inhabited

/-- `class RequestModel(BaseModel)` after pydantic validation: the optional
fields hold the values the handler sees (`logprobs` defaults to `False`,
`top_logprobs` to `None`, `stream` and `include_usage` to `False`). -/
structure RequestModel where
  model : String
  messages : List Message
  logprobs : Option Bool
  top_logprobs : Option Int
  stream : Option Bool
  include_usage : Option Bool
deriving DecidableEq, Inhabited

/-- An inbound JSON request before validation: the outer `Option` records
whether the key was supplied at all, the inner one whether it was `null`. -/
structure RawRequest where
  model : String
  messages : List Message
  logprobs : Option (Option Bool)
  top_logprobs : Option (Option Int)
  stream : Option (Option Bool)
  include_usage : Option (Option Bool)
deriving DecidableEq, Inhabited

/-- Pydantic validation of `RequestModel`: an absent key takes the declared
default (`logprobs: Optional[bool] = False`, `top_logprobs: Optional[int] =
None`, `stream: Optional[bool] = False`, `include_usage: Optional[bool] =
False`); a supplied key keeps its value (`null` becomes `None`). -/
def parseRequest (r : RawRequest) : RequestModel :=
  { model := r.model
    messages := r.messages
    logprobs := r.logprobs.getD (some false)
    top_logprobs := r.top_logprobs.getD none
    stream := r.stream.getD (some false)
    include_usage := r.include_usage.getD (some false) }

/-- One entry of the `config` list loaded from `api.yaml`: keys `provider`,
`base_url`, `api`, `model` (a list of model names). -/
structure Provider where
  provider : String
  base_url : String
  api : String
  model : List String
deriving DecidableEq, Inhabited

/-- The outbound JSON payload built by `process_request`; an `Option` field
is `none` exactly when the corresponding key is absent from the dict. -/
structure Payload where
  model : String
  messages : List (String × String)
  stream : Option Bool
  include_usage : Option Bool
  max_tokens : Option Nat
  logprobs : Option Bool
  top_logprobs : Option Int
deriving DecidableEq, Inhabited

/-- Content flattening in `process_request`: a list content becomes
`" ".join([item.text for item in msg.content if item.type == "text"])`,
a plain string passes through. -/
def flattenContent : MessageContent → String
  | .str s => s
  | .parts items =>
      String.intercalate " " ((items.filter (fun item => item.type == "text")).map ContentItem.text)

/-- The pure payload construction of `process_request`: base payload with
`model` and flattened `messages`; `stream` / `include_usage` added when not
`None`; then `max_tokens = 1000` for the `anthropic` provider, otherwise
`logprobs` / `top_logprobs` added when not `None`. -/
def process_request_payload (request : RequestModel) (provider : Provider) : Payload :=
  let messages := request.messages.map (fun msg => (msg.role, flattenContent msg.content))
  let payload : Payload :=
    { model := request.model
      messages := messages
      stream := request.stream
      include_usage := request.include_usage
      max_tokens := none
      logprobs := none
      top_logprobs := none }
  if provider.provider == "anthropic" then
    { payload with max_tokens := some 1000 }
  else
    { payload with logprobs := request.logprobs, top_logprobs := request.top_logprobs }

/-- Headers built by `process_request`. -/
def requestHeaders (provider : Provider) : List (String × String) :=
  [("Authorization", "Bearer " ++ provider.api), ("Content-Type", "application/json")]

/-- The raw HTTP response an httpx `client.post` call hands back when the
transport succeeds: a status code and, when the body parses as JSON, the
parsed value (`none` = `response.json()` would raise). httpx returns a
response object for every status code; error statuses do not raise. -/
structure HttpResponse (α : Type) where
  status_code : Nat
  jsonBody : Option α
deriving DecidableEq, Inhabited

/-- `fetch_response`: awaits `client.post` (`transport`), then returns
`response.json()`. A transport error propagates; an unparsable body raises
from `response.json()`; otherwise the parsed body is returned regardless of
the status code (the source never checks `response.status_code`). -/
def fetch_response {α : Type} (transport : Except String (HttpResponse α)) : Except String α :=
  match transport with
  | .error e => .error e
  | .ok resp =>
      match resp.jsonBody with
      | some v => .ok v
      | none => .error "JSONDecodeError"

/-- `fastapi.HTTPException(status_code, detail)`. -/
structure HTTPException where
  status_code : Nat
  detail : String
deriving DecidableEq, Inhabited

/-- Observable outcome of one call into the handler: the returned value or
raised `HTTPException`, the final value of `self.last_provider_index`, the
indices attempted (each is the value assigned to the cursor immediately
before that attempt, in order), and the per-failure log entries
`(provider name, error)` printed by the `except` branch. -/
structure SweepOutcome (α : Type) where
  result : Except HTTPException α
  finalIndex : Int
  attempts : List Nat
  errorLog : List (String × String)
deriving Inhabited

/-- The index computed for loop iteration `i` of `try_all_providers`:
`(start_index + i) % num_providers` under round-robin (Python `%`, i.e.
`Int.emod`), else `i`. -/
def computeIndex (use_round_robin : Bool) (start_index : Int) (n : Nat) (i : Nat) : Nat :=
  if use_round_robin then ((start_index + (i : Int)) % (n : Int)).toNat else i

/-- The `for i in range(num_providers)` loop of `try_all_providers`,
unrolled on the number of remaining iterations: at iteration `i` the cursor
is set to `computeIndex …`, the provider at that index is attempted
(`behavior idx`), a success returns immediately, a failure is logged with
the provider identity and the loop continues; exhaustion raises the 500.
`last` is the cursor value entering the iteration. -/
def try_loop {α : Type} (providers : List Provider) (behavior : Nat → Except String α)
    (use_round_robin : Bool) (start_index : Int) : Nat → Nat → Int → SweepOutcome α
  | _, 0, last =>
      { result := .error ⟨500, "All providers failed"⟩
        finalIndex := last
        attempts := []
        errorLog := [] }
  | i, remaining + 1, _ =>
      let idx := computeIndex use_round_robin start_index providers.length i
      match behavior idx with
      | .ok resp =>
          { result := .ok resp
            finalIndex := (idx : Int)
            attempts := [idx]
            errorLog := [] }
      | .error e =>
          let rest := try_loop providers behavior use_round_robin start_index (i + 1) remaining (idx : Int)
          { result := rest.result
            finalIndex := rest.finalIndex
            attempts := idx :: rest.attempts
            errorLog := ((providers.getD idx default).provider, e) :: rest.errorLog }

/-- `ModelRequestHandler.try_all_providers`: `start_index` is the incoming
`self.last_provider_index` under round-robin, `0` otherwise; then the
attempt loop over `range(len(providers))`. -/
def try_all_providers {α : Type} (providers : List Provider) (behavior : Nat → Except String α)
    (use_round_robin : Bool) (last_provider_index : Int) : SweepOutcome α :=
  let start_index := if use_round_robin then last_provider_index else 0
  try_loop providers behavior use_round_robin start_index 0 providers.length last_provider_index

/-- `ModelRequestHandler.get_matching_providers`: the registry-order filter
of `config` by `model_name in provider['model']`. -/
def get_matching_providers (config : List Provider) (model_name : String) : List Provider :=
  config.filter (fun provider => provider.model.contains model_name)

/-- `ModelRequestHandler.__init__`: `self.last_provider_index = -1`. -/
def initial_last_provider_index : Int := -1

/-- `ModelRequestHandler.request_model`: compute the matching providers; if
none, raise 404 "No matching model found" (cursor untouched, no attempt);
otherwise run `try_all_providers`. -/
def request_model {α : Type} (config : List Provider) (behavior : Nat → Except String α)
    (use_round_robin : Bool) (last_provider_index : Int) (request : RequestModel) :
    SweepOutcome α :=
  let matching := get_matching_providers config request.model
  if matching.isEmpty then
    { result := .error ⟨404, "No matching model found"⟩
      finalIndex := last_provider_index
      attempts := []
      errorLog := [] }
  else
    try_all_providers matching behavior use_round_robin last_provider_index

/-- The full traversal order of one sweep: `computeIndex` over
`range(num_providers)`. -/
def traversalOrder (use_round_robin : Bool) (start_index : Int) (n : Nat) : List Nat :=
  (List.range n).map (computeIndex use_round_robin start_index n)

/-- The starting offset of a sweep, as chosen by `try_all_providers`. -/
def sweep_start (use_round_robin : Bool) (last_provider_index : Int) : Int :=
  if use_round_robin then last_provider_index else 0

/-- Modelled from the spec (§7 / claim C8): a per-provider "failure" as the
spec words it — a transport error, or a provider response with an error
status or an unparsable body. Used only to compare the spec's claim with
the source's `fetch_response`. -/
def specProviderFailure {α : Type} (transport : Except String (HttpResponse α)) : Prop :=
  (∃ e, transport = .error e) ∨
    (∃ resp, transport = .ok resp ∧ (400 ≤ resp.status_code ∨ resp.jsonBody = none))

/-! Concrete fixtures used by witnesses and counterexamples. -/

/-- A non-anthropic registry entry. -/
def providerOpenai : Provider :=
  { provider := "openai", base_url := "https://a.example/v1", api := "k1", model := ["gpt-x"] }

/-- An anthropic registry entry. -/
def providerClaude : Provider :=
  { provider := "anthropic", base_url := "https://b.example/v1", api := "k2", model := ["gpt-x"] }

/-- A two-entry registry where both providers serve `gpt-x`. -/
def configTwo : List Provider := [providerOpenai, providerClaude]

/-- A validated request for `gpt-x` that supplies `logprobs` and `top_logprobs`. -/
def requestGptX : RequestModel :=
  { model := "gpt-x"
    messages := [{ role := "user", content := .str "hi" }]
    logprobs := some true
    top_logprobs := some 3
    stream := some false
    include_usage := some false }

/-- A validated request for a model no provider serves. -/
def requestUnknown : RequestModel :=
  { requestGptX with model := "missing-model" }

/-- A raw inbound request that supplies none of the optional keys. -/
def rawBare : RawRequest :=
  { model := "gpt-x"
    messages := [{ role := "user", content := .str "hi" }]
    logprobs := none
    top_logprobs := none
    stream := none
    include_usage := none }

/-- Attempt behavior where every provider call raises. -/
def bhFail : Nat → Except String Nat := fun _ => .error "boom"

/-- Attempt behavior where only the provider at index 1 succeeds. -/
def bhOkAtOne : Nat → Except String Nat := fun idx => if idx = 1 then .ok 42 else .error "boom"

/-- Transport outcomes where every provider answers with HTTP 500 and a
JSON-parsable error body. -/
def transportsErrStatus : Nat → Except String (HttpResponse String) :=
  fun _ => .ok { status_code := 500, jsonBody := some "errbody" }

/-- Transport outcomes where every provider connection fails. -/
def transportsDown : Nat → Except String (HttpResponse String) :=
  fun _ => .error "connection refused"

/-- The log-entry builder matching the `except` branch of `try_all_providers`:
a failed attempt at index `idx` is logged as the provider's name with the
error text. -/
def logEntry {α : Type} (providers : List Provider) (behavior : Nat → Except String α)
    (idx : Nat) : Option (String × String) :=
  match behavior idx with
  | .ok _ => none
  | .error e => some ((providers.getD idx default).provider, e)

/-! Helper lemmas about the computed indices and the traversal order. -/

theorem computeIndex_sequential (start : Int) (n i : Nat) :
    computeIndex false start n i = i := rfl

theorem computeIndex_round_robin (start : Int) (n i : Nat) :
    computeIndex true start n i = ((start + (i : Int)) % (n : Int)).toNat := rfl

theorem computeIndex_lt {n i : Nat} (rr : Bool) (start : Int) (h : i < n) :
    computeIndex rr start n i < n := by
  cases rr with
  | false => simpa [computeIndex] using h
  | true =>
      simp only [computeIndex, if_true]
      have h1 : 0 ≤ (start + (i : Int)) % (n : Int) := Int.emod_nonneg _ (by omega)
      have h2 : (start + (i : Int)) % (n : Int) < (n : Int) :=
        Int.emod_lt_of_pos _ (by exact_mod_cast Nat.pos_of_ne_zero (by omega))
      omega

theorem computeIndex_inj {n i j : Nat} (rr : Bool) (start : Int) (hi : i < n) (hj : j < n)
    (h : computeIndex rr start n i = computeIndex rr start n j) : i = j := by
  cases rr with
  | false => simpa [computeIndex] using h
  | true =>
      simp only [computeIndex, if_true] at h
      have hn : (0 : Int) < n := by exact_mod_cast Nat.pos_of_ne_zero (by omega)
      have h1 : 0 ≤ (start + (i : Int)) % (n : Int) := Int.emod_nonneg _ (by omega)
      have h2 : 0 ≤ (start + (j : Int)) % (n : Int) := Int.emod_nonneg _ (by omega)
      have heq : (start + (i : Int)) % (n : Int) = (start + (j : Int)) % (n : Int) := by omega
      have hdvd : (n : Int) ∣ ((i : Int) - (j : Int)) := by
        have hs := Int.sub_emod (start + (i : Int)) (start + (j : Int)) (n : Int)
        simp [heq] at hs
        exact hs
      have := Int.eq_zero_of_abs_lt_dvd hdvd (by
        rw [abs_lt]
        constructor <;> omega)
      omega

theorem traversalOrder_length (rr : Bool) (start : Int) (n : Nat) :
    (traversalOrder rr start n).length = n := by
  simp [traversalOrder]

theorem traversalOrder_nodup (rr : Bool) (start : Int) (n : Nat) :
    (traversalOrder rr start n).Nodup := by
  refine List.Nodup.map_on ?_ (List.nodup_range n)
  intro x hx y hy hxy
  exact computeIndex_inj rr start (List.mem_range.mp hx) (List.mem_range.mp hy) hxy

theorem traversalOrder_mem {j n : Nat} (rr : Bool) (start : Int) (hj : j < n) :
    j ∈ traversalOrder rr start n := by
  cases rr with
  | false =>
      simp only [traversalOrder]
      exact List.mem_map.mpr ⟨j, List.mem_range.mpr hj, rfl⟩
  | true =>
      have hn : (0 : Int) < n := by exact_mod_cast Nat.pos_of_ne_zero (by omega)
      have h1 : 0 ≤ ((j : Int) - start) % (n : Int) := Int.emod_nonneg _ (by omega)
      have h2 : ((j : Int) - start) % (n : Int) < (n : Int) := Int.emod_lt_of_pos _ hn
      refine List.mem_map.mpr ⟨(((j : Int) - start) % (n : Int)).toNat, List.mem_range.mpr (by omega), ?_⟩
      simp only [computeIndex, if_true]
      have htn : (((((j : Int) - start) % (n : Int)).toNat : Int)) = ((j : Int) - start) % (n : Int) :=
        Int.toNat_of_nonneg h1
      rw [htn]
      have hstep : (start + ((j : Int) - start) % (n : Int)) % (n : Int)
          = (start + ((j : Int) - start)) % (n : Int) := by
        conv_rhs => rw [Int.add_emod]
        rw [Int.add_emod start]
        rw [Int.emod_emod_of_dvd _ (dvd_refl _)]
      rw [hstep]
      have harg : start + ((j : Int) - start) = (j : Int) := by ring
      rw [harg, Int.emod_eq_of_lt (by omega) (by omega)]
      omega

theorem traversalOrder_count {j n : Nat} (rr : Bool) (start : Int) (hj : j < n) :
    (traversalOrder rr start n).count j = 1 :=
  List.count_eq_one_of_mem (traversalOrder_nodup rr start n) (traversalOrder_mem rr start hj)

/-! Helper lemmas about the attempt loop. -/

theorem try_all_providers_eq_loop {α : Type} (providers : List Provider)
    (behavior : Nat → Except String α) (rr : Bool) (st : Int) :
    try_all_providers providers behavior rr st
      = try_loop providers behavior rr (sweep_start rr st) 0 providers.length st := rfl

theorem try_loop_error_eq {α : Type} (providers : List Provider)
    (behavior : Nat → Except String α) (rr : Bool) (start : Int) :
    ∀ (r i : Nat) (last : Int) (e : HTTPException),
      (try_loop providers behavior rr start i r last).result = .error e →
      e = ⟨500, "All providers failed"⟩ := by
  intro r
  induction r with
  | zero =>
      intro i last e h
      simp [try_loop] at h
      exact h.symm
  | succ r ih =>
      intro i last e h
      cases hb : behavior (computeIndex rr start providers.length i) with
      | ok resp => simp [try_loop, hb] at h
      | error err =>
          simp only [try_loop, hb] at h
          exact ih (i + 1) _ e h

theorem try_loop_error_attempts_length {α : Type} (providers : List Provider)
    (behavior : Nat → Except String α) (rr : Bool) (start : Int) :
    ∀ (r i : Nat) (last : Int) (e : HTTPException),
      (try_loop providers behavior rr start i r last).result = .error e →
      (try_loop providers behavior rr start i r last).attempts.length = r := by
  intro r
  induction r with
  | zero =>
      intro i last e _
      simp [try_loop]
  | succ r ih =>
      intro i last e h
      cases hb : behavior (computeIndex rr start providers.length i) with
      | ok resp => simp [try_loop, hb] at h
      | error err =>
          simp only [try_loop, hb] at h ⊢
          simp only [List.length_cons]
          rw [ih (i + 1) _ e h]

theorem try_loop_errorLog_eq {α : Type} (providers : List Provider)
    (behavior : Nat → Except String α) (rr : Bool) (start : Int) :
    ∀ (r i : Nat) (last : Int),
      (try_loop providers behavior rr start i r last).errorLog
        = (try_loop providers behavior rr start i r last).attempts.filterMap
            (logEntry providers behavior) := by
  intro r
  induction r with
  | zero =>
      intro i last
      simp [try_loop]
  | succ r ih =>
      intro i last
      cases hb : behavior (computeIndex rr start providers.length i) with
      | ok resp => simp [try_loop, hb, logEntry]
      | error err =>
          simp only [try_loop, hb, List.filterMap_cons, logEntry]
          rw [ih (i + 1)]

theorem try_loop_shape {α : Type} (providers : List Provider)
    (behavior : Nat → Except String α) (rr : Bool) (start : Int) :
    ∀ (r i : Nat) (last : Int),
      ∃ m, m ≤ r ∧
        (try_loop providers behavior rr start i r last).attempts
          = (List.range' i m).map (computeIndex rr start providers.length) ∧
        (0 < r → 0 < m) ∧
        (m = 0 → (try_loop providers behavior rr start i r last).finalIndex = last) ∧
        (0 < m → (try_loop providers behavior rr start i r last).finalIndex
            = ((computeIndex rr start providers.length (i + m - 1) : Nat) : Int)) := by
  intro r
  induction r with
  | zero =>
      intro i last
      exact ⟨0, le_rfl, by simp [try_loop], by omega, by simp [try_loop], by omega⟩
  | succ r ih =>
      intro i last
      cases hb : behavior (computeIndex rr start providers.length i) with
      | ok resp =>
          refine ⟨1, by omega, ?_, by omega, by omega, ?_⟩
          · simp [try_loop, hb, List.range'_one]
          · intro _
            simp [try_loop, hb]
      | error err =>
          obtain ⟨m, hmle, hatt, hpos, hfin0, hfin⟩ :=
            ih (i + 1) ((computeIndex rr start providers.length i : Nat) : Int)
          refine ⟨m + 1, by omega, ?_, by omega, by omega, ?_⟩
          · simp only [try_loop, hb, List.range'_succ, List.map_cons]
            rw [hatt]
          · intro _
            simp only [try_loop, hb]
            rcases Nat.eq_zero_or_pos m with hm | hm
            · subst hm
              rw [hfin0 rfl]
              have harith : i + (0 + 1) - 1 = i := by omega
              rw [harith]
            · rw [hfin hm]
              have harith : i + 1 + m - 1 = i + (m + 1) - 1 := by omega
              rw [harith]

theorem try_loop_all_fail {α : Type} (providers : List Provider)
    (behavior : Nat → Except String α) (rr : Bool) (start : Int)
    (hfail : ∀ idx, idx < providers.length → ∃ e, behavior idx = Except.error e) :
    ∀ (r i : Nat) (last : Int), i + r ≤ providers.length →
      (try_loop providers behavior rr start i r last).result
          = .error ⟨500, "All providers failed"⟩ ∧
      (try_loop providers behavior rr start i r last).attempts
          = (List.range' i r).map (computeIndex rr start providers.length) := by
  intro r
  induction r with
  | zero =>
      intro i last _
      simp [try_loop]
  | succ r ih =>
      intro i last hbound
      have hidx : computeIndex rr start providers.length i < providers.length :=
        computeIndex_lt rr start (by omega)
      obtain ⟨e, he⟩ := hfail _ hidx
      obtain ⟨ihres, ihatt⟩ := ih (i + 1) ((computeIndex rr start providers.length i : Nat) : Int) (by omega)
      constructor
      · simp only [try_loop, he]
        exact ihres
      · simp only [try_loop, he, List.range'_succ, List.map_cons]
        rw [ihatt]

theorem try_loop_success {α : Type} (providers : List Provider)
    (behavior : Nat → Except String α) (rr : Bool) (start : Int) (k : Nat) (resp : α)
    (hsucc : behavior (computeIndex rr start providers.length k) = .ok resp)
    (hfail : ∀ j, j < k → ∃ e, behavior (computeIndex rr start providers.length j) = Except.error e) :
    ∀ (r i : Nat) (last : Int), i ≤ k → k < i + r →
      (try_loop providers behavior rr start i r last).result = .ok resp ∧
      (try_loop providers behavior rr start i r last).attempts
          = (List.range' i (k - i + 1)).map (computeIndex rr start providers.length) ∧
      (try_loop providers behavior rr start i r last).finalIndex
          = ((computeIndex rr start providers.length k : Nat) : Int) := by
  intro r
  induction r with
  | zero =>
      intro i last hik hki
      omega
  | succ r ih =>
      intro i last hik hki
      rcases Nat.eq_or_lt_of_le hik with hik' | hik'
      · subst hik'
        refine ⟨?_, ?_, ?_⟩
        · simp [try_loop, hsucc]
        · simp [try_loop, hsucc, List.range'_one]
        · simp [try_loop, hsucc]
      · obtain ⟨e, he⟩ := hfail i hik'
        obtain ⟨ihres, ihatt, ihfin⟩ :=
          ih (i + 1) ((computeIndex rr start providers.length i : Nat) : Int) (by omega) (by omega)
        refine ⟨?_, ?_, ?_⟩
        · simp only [try_loop, he]
          exact ihres
        · simp only [try_loop, he]
          have hcount : k - i + 1 = (k - (i + 1) + 1) + 1 := by omega
          rw [hcount, List.range'_succ, List.map_cons, ihatt]
        · simp only [try_loop, he]
          exact ihfin

/-! Helper lemmas about the matching-provider computation and the handler. -/

theorem get_matching_providers_mem (config : List Provider) (m : String) (p : Provider) :
    p ∈ get_matching_providers config m ↔ p ∈ config ∧ m ∈ p.model := by
  simp [get_matching_providers, List.mem_filter, List.contains]

theorem get_matching_providers_sublist (config : List Provider) (m : String) :
    (get_matching_providers config m).Sublist config :=
  List.filter_sublist config

theorem get_matching_providers_eq_nil (config : List Provider) (m : String)
    (h : ∀ p ∈ config, m ∉ p.model) : get_matching_providers config m = [] := by
  refine List.filter_eq_nil_iff.mpr ?_
  intro p hp
  simp [List.contains]
  exact h p hp

theorem request_model_no_match {α : Type} (config : List Provider)
    (behavior : Nat → Except String α) (rr : Bool) (st : Int) (request : RequestModel)
    (h : get_matching_providers config request.model = []) :
    request_model config behavior rr st request
      = { result := .error ⟨404, "No matching model found"⟩
          finalIndex := st
          attempts := []
          errorLog := [] } := by
  simp [request_model, h]

theorem request_model_match {α : Type} (config : List Provider)
    (behavior : Nat → Except String α) (rr : Bool) (st : Int) (request : RequestModel)
    (h : get_matching_providers config request.model ≠ []) :
    request_model config behavior rr st request
      = try_all_providers (get_matching_providers config request.model) behavior rr st := by
  simp [request_model, h]

/-! The claims. -/

/-- C1: for every request whose model is contained in no registered
provider's model list, handling the request fails with a 404
`HTTPException` with detail "No matching model found", regardless of the
registry's size or contents; and the matching set is the registry-order
sublist of exactly the providers whose model list contains the requested
model. -/
theorem C1_no_matching_provider_yields_not_found {α : Type} (config : List Provider)
    (behavior : Nat → Except String α) (rr : Bool) (st : Int) (request : RequestModel)
    (h : ∀ p ∈ config, request.model ∉ p.model) :
    (request_model config behavior rr st request).result
        = .error ⟨404, "No matching model found"⟩ ∧
    (get_matching_providers config request.model).Sublist config ∧
    (∀ p, p ∈ get_matching_providers config request.model
        ↔ p ∈ config ∧ request.model ∈ p.model) := by
  have hnil := get_matching_providers_eq_nil config request.model h
  refine ⟨?_, get_matching_providers_sublist config request.model,
    fun p => get_matching_providers_mem config request.model p⟩
  rw [request_model_no_match config behavior rr st request hnil]

/-- C1 witness: on the concrete two-provider registry, a request for
`missing-model` is rejected with the 404. -/
theorem C1_witness :
    (request_model configTwo bhFail false (-1) requestUnknown).result
        = .error ⟨404, "No matching model found"⟩ ∧
    (get_matching_providers configTwo requestUnknown.model).Sublist configTwo ∧
    (∀ p, p ∈ get_matching_providers configTwo requestUnknown.model
        ↔ p ∈ configTwo ∧ requestUnknown.model ∈ p.model) :=
  C1_no_matching_provider_yields_not_found configTwo bhFail false (-1) requestUnknown
    (by decide)

/-- C10: when no provider matches, the 404 is raised before any traversal:
the cursor keeps its incoming value and no attempt is made. -/
theorem C10_not_found_leaves_cursor_unchanged {α : Type} (config : List Provider)
    (behavior : Nat → Except String α) (rr : Bool) (st : Int) (request : RequestModel)
    (h : ∀ p ∈ config, request.model ∉ p.model) :
    (request_model config behavior rr st request).result
        = .error ⟨404, "No matching model found"⟩ ∧
    (request_model config behavior rr st request).finalIndex = st ∧
    (request_model config behavior rr st request).attempts = [] := by
  rw [request_model_no_match config behavior rr st request
    (get_matching_providers_eq_nil config request.model h)]
  exact ⟨rfl, rfl, rfl⟩

/-- C10 witness: with an incoming cursor of 7, the 404 path leaves it at 7
and attempts nothing. -/
theorem C10_witness :
    (request_model configTwo bhFail true 7 requestUnknown).result
        = .error ⟨404, "No matching model found"⟩ ∧
    (request_model configTwo bhFail true 7 requestUnknown).finalIndex = 7 ∧
    (request_model configTwo bhFail true 7 requestUnknown).attempts = [] :=
  C10_not_found_leaves_cursor_unchanged configTwo bhFail true 7 requestUnknown (by decide)

/-- C2: when the request matches `n ≥ 1` providers and every attempted
provider call fails, handling the request raises the 500 "All providers
failed", and the attempts are exactly the computed traversal order
(`0..n-1` sequential, `(offset+i) mod n` round-robin), each matching
provider attempted exactly once. -/
theorem C2_all_providers_fail_yields_500 {α : Type} (config : List Provider)
    (behavior : Nat → Except String α) (rr : Bool) (st : Int) (request : RequestModel)
    (matching : List Provider)
    (hm : matching = get_matching_providers config request.model)
    (hne : matching ≠ [])
    (hfail : ∀ idx, idx < matching.length → ∃ e, behavior idx = Except.error e) :
    (request_model config behavior rr st request).result
        = .error ⟨500, "All providers failed"⟩ ∧
    (request_model config behavior rr st request).attempts
        = traversalOrder rr (sweep_start rr st) matching.length ∧
    (request_model config behavior rr st request).attempts.length = matching.length ∧
    (∀ j, j < matching.length →
        (request_model config behavior rr st request).attempts.count j = 1) := by
  subst hm
  rw [request_model_match config behavior rr st request hne, try_all_providers_eq_loop]
  obtain ⟨hres, hatt⟩ :=
    try_loop_all_fail (get_matching_providers config request.model) behavior rr
      (sweep_start rr st) hfail (get_matching_providers config request.model).length 0 st
      (by omega)
  have horder : (try_loop (get_matching_providers config request.model) behavior rr
        (sweep_start rr st) 0 (get_matching_providers config request.model).length st).attempts
      = traversalOrder rr (sweep_start rr st)
          (get_matching_providers config request.model).length := by
    rw [hatt, traversalOrder, List.range_eq_range']
  refine ⟨hres, horder, ?_, ?_⟩
  · rw [horder, traversalOrder_length]
  · intro j hj
    rw [horder]
    exact traversalOrder_count rr (sweep_start rr st) hj

/-- C2 witness: both providers of the concrete registry fail under
round-robin from cursor `-1`; the 500 is raised and index 0 is attempted
exactly once. -/
theorem C2_witness :
    (request_model configTwo bhFail true (-1) requestGptX).result
        = .error ⟨500, "All providers failed"⟩ ∧
    (request_model configTwo bhFail true (-1) requestGptX).attempts
        = traversalOrder true (sweep_start true (-1)) configTwo.length ∧
    (request_model configTwo bhFail true (-1) requestGptX).attempts.count 0 = 1 := by
  obtain ⟨h1, h2, _, h4⟩ :=
    C2_all_providers_fail_yields_500 configTwo bhFail true (-1) requestGptX configTwo
      (by decide) (by decide) (fun idx _ => ⟨"boom", rfl⟩)
  exact ⟨h1, h2, h4 0 (by decide)⟩

/-- C3: if the `k`-th provider in traversal order succeeds, the coordinator
returns that provider's result immediately: exactly the first `k + 1`
entries of the traversal order are attempted (the earlier `k` all failed by
hypothesis), and no later provider is invoked. -/
theorem C3_kth_success_returns_immediately {α : Type} (providers : List Provider)
    (behavior : Nat → Except String α) (rr : Bool) (st : Int) (k : Nat) (resp : α)
    (hk : k < providers.length)
    (hsucc : behavior (computeIndex rr (sweep_start rr st) providers.length k) = .ok resp)
    (hfail : ∀ j, j < k →
        ∃ e, behavior (computeIndex rr (sweep_start rr st) providers.length j)
          = Except.error e) :
    (try_all_providers providers behavior rr st).result = .ok resp ∧
    (try_all_providers providers behavior rr st).attempts
        = (traversalOrder rr (sweep_start rr st) providers.length).take (k + 1) ∧
    (try_all_providers providers behavior rr st).attempts.length = k + 1 := by
  rw [try_all_providers_eq_loop]
  obtain ⟨hres, hatt, _⟩ :=
    try_loop_success providers behavior rr (sweep_start rr st) k resp hsucc hfail
      providers.length 0 st (by omega) (by omega)
  have hshape : (try_loop providers behavior rr (sweep_start rr st) 0 providers.length st).attempts
      = (traversalOrder rr (sweep_start rr st) providers.length).take (k + 1) := by
    rw [hatt, traversalOrder, ← List.map_take, List.take_range]
    have hmin : min (k + 1) providers.length = k + 1 := by omega
    rw [hmin, List.range_eq_range']
    have harith : k - 0 + 1 = k + 1 := by omega
    rw [harith]
  refine ⟨hres, hshape, ?_⟩
  rw [hatt]
  simp

/-- C3 witness: sequentially, provider 0 fails and provider 1 succeeds with
42; the sweep returns 42 after exactly the first two attempts. -/
theorem C3_witness :
    (try_all_providers configTwo bhOkAtOne false (-1)).result = .ok 42 ∧
    (try_all_providers configTwo bhOkAtOne false (-1)).attempts
        = (traversalOrder false (sweep_start false (-1)) configTwo.length).take 2 ∧
    (try_all_providers configTwo bhOkAtOne false (-1)).attempts.length = 2 :=
  C3_kth_success_returns_immediately configTwo bhOkAtOne false (-1) 1 42 (by decide)
    rfl
    (fun j hj => by
      have hj0 : j = 0 := by omega
      subst hj0
      exact ⟨"boom", rfl⟩)

/-- C4: in round-robin mode over `n` matching providers, the `j`-th attempt
is at index `(offset + j) mod n` where `offset` is the incoming cursor
value (`-1` on first-ever use), the cursor is set to that index before each
attempt (so the final cursor is the last such index), and a second
consecutive call starts at `(first call's final index) mod n`. -/
theorem C4_round_robin_traversal {α β : Type} (providers : List Provider)
    (bh1 : Nat → Except String α) (bh2 : Nat → Except String β) (st : Int)
    (hne : providers ≠ []) :
    (∀ j, j < (try_all_providers providers bh1 true st).attempts.length →
        (try_all_providers providers bh1 true st).attempts.getD j 0
          = ((st + (j : Int)) % (providers.length : Int)).toNat) ∧
    (try_all_providers providers bh1 true st).attempts ≠ [] ∧
    (try_all_providers providers bh1 true st).finalIndex
        = ((((st + ((((try_all_providers providers bh1 true st).attempts.length - 1 : Nat) : Int)))
            % (providers.length : Int)).toNat : Nat) : Int) ∧
    (try_all_providers providers bh2 true
        (try_all_providers providers bh1 true st).finalIndex).attempts.head?
        = some ((((try_all_providers providers bh1 true st).finalIndex)
            % (providers.length : Int)).toNat) := by
  have hn : 0 < providers.length := List.length_pos.mpr hne
  have e1 : try_all_providers providers bh1 true st
      = try_loop providers bh1 true st 0 providers.length st := rfl
  obtain ⟨m, hmle, hatt, hpos, hfin0, hfin⟩ :=
    try_loop_shape providers bh1 true st providers.length 0 st
  have hm : 0 < m := hpos hn
  have hlen : (try_loop providers bh1 true st 0 providers.length st).attempts.length = m := by
    rw [hatt]
    simp
  refine ⟨?_, ?_, ?_, ?_⟩
  · intro j hj
    rw [e1] at hj ⊢
    rw [hlen] at hj
    rw [hatt, List.getD_eq_getElem _ _ (by simpa using hj)]
    rw [List.getElem_map, List.getElem_range'_1]
    simp [computeIndex]
  · rw [e1, hatt]
    intro hcon
    have hl := congrArg List.length hcon
    simp at hl
    omega
  · rw [e1, hlen, hfin hm]
    simp [computeIndex]
  · generalize (try_all_providers providers bh1 true st).finalIndex = fin
    have e2 : try_all_providers providers bh2 true fin
        = try_loop providers bh2 true fin 0 providers.length fin := rfl
    obtain ⟨m2, hm2le, hatt2, hpos2, _, _⟩ :=
      try_loop_shape providers bh2 true fin providers.length 0 fin
    rw [e2, hatt2]
    obtain ⟨m3, hm3⟩ : ∃ m3, m2 = m3 + 1 := ⟨m2 - 1, by have := hpos2 hn; omega⟩
    subst hm3
    rw [List.range'_succ, List.map_cons, List.head?_cons]
    simp [computeIndex]

/-- C4 witness: on the concrete registry (n = 2) starting from cursor `-1`,
the sweep attempts something, the final cursor is the last computed index,
and the next call starts at `final mod 2`. -/
theorem C4_witness :
    (try_all_providers configTwo bhFail true (-1)).attempts ≠ [] ∧
    (try_all_providers configTwo bhFail true (-1)).finalIndex
        = (((((-1 : Int) + ((((try_all_providers configTwo bhFail true (-1)).attempts.length - 1 : Nat) : Int)))
            % (configTwo.length : Int)).toNat : Nat) : Int) ∧
    (try_all_providers configTwo bhFail true
        (try_all_providers configTwo bhFail true (-1)).finalIndex).attempts.head?
        = some ((((try_all_providers configTwo bhFail true (-1)).finalIndex)
            % (configTwo.length : Int)).toNat) := by
  obtain ⟨_, h2, h3, h4⟩ :=
    C4_round_robin_traversal configTwo bhFail bhFail (-1) (by decide)
  exact ⟨h2, h3, h4⟩

/-- C9: the cursor starts at `-1`; during a sweep over `n ≥ 1` providers
every attempt sets it to an index in `[0, n-1]` of the traversed list, and
after the sweep (either mode) it lies in `[0, n-1]`, hence in `[-1, n-1]`. -/
theorem C9_cursor_range_invariant {α : Type} (providers : List Provider)
    (behavior : Nat → Except String α) (rr : Bool) (st : Int) (hne : providers ≠ []) :
    initial_last_provider_index = -1 ∧
    (∀ a ∈ (try_all_providers providers behavior rr st).attempts, a < providers.length) ∧
    0 ≤ (try_all_providers providers behavior rr st).finalIndex ∧
    (try_all_providers providers behavior rr st).finalIndex ≤ (providers.length : Int) - 1 ∧
    -1 ≤ (try_all_providers providers behavior rr st).finalIndex := by
  have hn : 0 < providers.length := List.length_pos.mpr hne
  have e1 : try_all_providers providers behavior rr st
      = try_loop providers behavior rr (sweep_start rr st) 0 providers.length st :=
    try_all_providers_eq_loop providers behavior rr st
  obtain ⟨m, hmle, hatt, hpos, hfin0, hfin⟩ :=
    try_loop_shape providers behavior rr (sweep_start rr st) providers.length 0 st
  have hm : 0 < m := hpos hn
  have hfin := hfin hm
  have hidx : computeIndex rr (sweep_start rr st) providers.length (0 + m - 1)
      < providers.length :=
    computeIndex_lt rr (sweep_start rr st) (by omega)
  refine ⟨rfl, ?_, ?_, ?_, ?_⟩
  · intro a ha
    rw [e1, hatt] at ha
    obtain ⟨j, hjmem, hjeq⟩ := List.mem_map.mp ha
    have hjlt : j < m := by
      have := List.mem_range'_1.mp hjmem
      omega
    rw [← hjeq]
    exact computeIndex_lt rr (sweep_start rr st) (by omega)
  · rw [e1, hfin]
    exact Int.natCast_nonneg _
  · rw [e1, hfin]
    omega
  · rw [e1, hfin]
    have := Int.natCast_nonneg (computeIndex rr (sweep_start rr st) providers.length (0 + m - 1))
    omega

/-- C9 witness: concrete round-robin sweep from cursor `-1` over the
two-provider registry ends with the cursor in `[0, 1]`. -/
theorem C9_witness :
    initial_last_provider_index = -1 ∧
    0 ≤ (try_all_providers configTwo bhFail true (-1)).finalIndex ∧
    (try_all_providers configTwo bhFail true (-1)).finalIndex ≤ (configTwo.length : Int) - 1 ∧
    -1 ≤ (try_all_providers configTwo bhFail true (-1)).finalIndex := by
  obtain ⟨h1, _, h3, h4, h5⟩ :=
    C9_cursor_range_invariant configTwo bhFail true (-1) (by decide)
  exact ⟨h1, h3, h4, h5⟩

/-- C5 counterexample: the claim "the non-anthropic payload contains
`logprobs` iff the request supplied it" is false: `rawBare` supplies no
`logprobs` key, yet after pydantic's `= False` default the translator still
emits `logprobs: false` for the non-anthropic provider. -/
theorem C5_counterexample :
    ¬ (∀ (raw : RawRequest) (p : Provider), p.provider ≠ "anthropic" →
        ((process_request_payload (parseRequest raw) p).logprobs.isSome
            = raw.logprobs.isSome ∧
         (process_request_payload (parseRequest raw) p).top_logprobs.isSome
            = raw.top_logprobs.isSome ∧
         (process_request_payload (parseRequest raw) p).max_tokens = none)) := by
  intro h
  have h2 := (h rawBare providerOpenai (by decide)).1
  exact absurd h2 (by decide)

/-- C5 (amended): for a non-anthropic provider the payload carries exactly
the validated request's `logprobs` and `top_logprobs` values — present iff
the validated value is not `None` (an omitted `logprobs` defaults to
`False` and is therefore still present) — and never `max_tokens`. -/
theorem C5_non_anthropic_payload_fields (request : RequestModel) (p : Provider)
    (h : p.provider ≠ "anthropic") :
    (process_request_payload request p).logprobs = request.logprobs ∧
    (process_request_payload request p).top_logprobs = request.top_logprobs ∧
    (process_request_payload request p).max_tokens = none := by
  have hb : (p.provider == "anthropic") = false := by simpa using h
  simp [process_request_payload, hb]

/-- C5 witness: the amended statement at the bare raw request and the
non-anthropic provider. -/
theorem C5_witness :
    (process_request_payload (parseRequest rawBare) providerOpenai).logprobs
        = (parseRequest rawBare).logprobs ∧
    (process_request_payload (parseRequest rawBare) providerOpenai).top_logprobs
        = (parseRequest rawBare).top_logprobs ∧
    (process_request_payload (parseRequest rawBare) providerOpenai).max_tokens = none :=
  C5_non_anthropic_payload_fields (parseRequest rawBare) providerOpenai (by decide)

/-- C6: for the provider named `anthropic` the payload always carries
`max_tokens = 1000` and neither `logprobs` nor `top_logprobs`, whatever the
request supplied. -/
theorem C6_anthropic_payload_fields (request : RequestModel) (p : Provider)
    (h : p.provider = "anthropic") :
    (process_request_payload request p).max_tokens = some 1000 ∧
    (process_request_payload request p).logprobs = none ∧
    (process_request_payload request p).top_logprobs = none := by
  simp [process_request_payload, h]

/-- C6 witness: `requestGptX` supplies both `logprobs` and `top_logprobs`,
yet the anthropic payload drops them and fixes `max_tokens = 1000`. -/
theorem C6_witness :
    requestGptX.logprobs = some true ∧
    requestGptX.top_logprobs = some 3 ∧
    (process_request_payload requestGptX providerClaude).max_tokens = some 1000 ∧
    (process_request_payload requestGptX providerClaude).logprobs = none ∧
    (process_request_payload requestGptX providerClaude).top_logprobs = none := by
  obtain ⟨h1, h2, h3⟩ := C6_anthropic_payload_fields requestGptX providerClaude rfl
  exact ⟨rfl, rfl, h1, h2, h3⟩

/-- C7: list content flattens to the `type == "text"` parts' texts joined
by single spaces in order — the concrete example gives "a b", non-text
parts never contribute, all-text lists concatenate in order — and a
plain-string content passes through unchanged; the translator applies this
flattening to every message, preserving message order and roles. -/
theorem C7_content_flattening :
    flattenContent (.parts [⟨"text", "a"⟩, ⟨"image", "x"⟩, ⟨"text", "b"⟩]) = "a b" ∧
    (∀ s, flattenContent (.str s) = s) ∧
    (∀ pre item post, item.type ≠ "text" →
        flattenContent (.parts (pre ++ item :: post))
          = flattenContent (.parts (pre ++ post))) ∧
    (∀ items, (∀ item ∈ items, item.type = "text") →
        flattenContent (.parts items)
          = String.intercalate " " (items.map ContentItem.text)) ∧
    (∀ (request : RequestModel) (p : Provider),
        (process_request_payload request p).messages
          = request.messages.map (fun msg => (msg.role, flattenContent msg.content))) := by
  refine ⟨rfl, fun s => rfl, ?_, ?_, ?_⟩
  · intro pre item post h
    have hb : (item.type == "text") = false := by simpa using h
    simp [flattenContent, List.filter_append, hb]
  · intro items h
    have hfil : items.filter (fun item => item.type == "text") = items :=
      List.filter_eq_self.mpr (fun a ha => by simpa using h a ha)
    simp [flattenContent, hfil]
  · intro request p
    cases hb : (p.provider == "anthropic") <;> simp [process_request_payload, hb]

/-- C7 witness: dropping the image part does not change the flattening, and
the remaining all-text list concatenates with single spaces. -/
theorem C7_witness :
    flattenContent (.parts [⟨"text", "a"⟩, ⟨"image", "x"⟩, ⟨"text", "b"⟩])
        = flattenContent (.parts [⟨"text", "a"⟩, ⟨"text", "b"⟩]) ∧
    flattenContent (.parts [⟨"text", "a"⟩, ⟨"text", "b"⟩])
        = String.intercalate " " ([⟨"text", "a"⟩, ⟨"text", "b"⟩].map ContentItem.text) := by
  constructor
  · exact C7_content_flattening.2.2.1 [⟨"text", "a"⟩] ⟨"image", "x"⟩ [⟨"text", "b"⟩]
      (by decide)
  · exact C7_content_flattening.2.2.2.1 [⟨"text", "a"⟩, ⟨"text", "b"⟩] (by decide)

/-- C8 counterexample: the claim counts "a non-success provider response
(error status …)" among the failures that make the sweep continue, but
`fetch_response` never inspects the status code: a provider answering HTTP
500 with a JSON-parsable body is returned as a success, so a registry whose
providers all "fail" in the claim's sense does not end in the aggregate
500. -/
theorem C8_counterexample :
    ¬ (∀ (providers : List Provider)
        (transports : Nat → Except String (HttpResponse String)) (st : Int),
        (∀ idx, idx < providers.length → specProviderFailure (transports idx)) →
        (try_all_providers providers (fun idx => fetch_response (transports idx)) false st).result
          = .error ⟨500, "All providers failed"⟩) := by
  intro h
  have h2 := h configTwo transportsErrStatus (-1)
    (fun idx _ =>
      Or.inr ⟨{ status_code := 500, jsonBody := some "errbody" }, rfl, Or.inl (by decide)⟩)
  have h3 : (Except.ok "errbody" : Except HTTPException String)
      = .error ⟨500, "All providers failed"⟩ := h2
  exact Except.noConfusion h3

/-- C8 (amended): a provider attempt raises exactly on a transport error or
an unparsable body (an error status with a parsable body is returned as a
success); every raised failure is caught by the coordinator, logged as the
provider's name with the error, and the sweep continues — an error outcome
of the sweep is only ever the aggregate 500, reached after attempting every
provider, so no individual provider error propagates past the coordinator. -/
theorem C8_failure_recovery {α : Type} (providers : List Provider)
    (transports : Nat → Except String (HttpResponse α)) (rr : Bool) (st : Int) :
    (∀ t : Except String (HttpResponse α),
        (∃ e, fetch_response t = Except.error e)
          ↔ (∃ e, t = Except.error e) ∨ ∃ resp, t = Except.ok resp ∧ resp.jsonBody = none) ∧
    (try_all_providers providers (fun idx => fetch_response (transports idx)) rr st).errorLog
        = ((try_all_providers providers (fun idx => fetch_response (transports idx)) rr st).attempts.filterMap
            (logEntry providers (fun idx => fetch_response (transports idx)))) ∧
    (∀ e, (try_all_providers providers (fun idx => fetch_response (transports idx)) rr st).result
          = Except.error e → e = ⟨500, "All providers failed"⟩) ∧
    (∀ e, (try_all_providers providers (fun idx => fetch_response (transports idx)) rr st).result
          = Except.error e →
        (try_all_providers providers (fun idx => fetch_response (transports idx)) rr st).attempts.length
          = providers.length) := by
  refine ⟨?_, ?_, ?_, ?_⟩
  · intro t
    rcases t with e | resp
    · constructor
      · intro _
        exact Or.inl ⟨e, rfl⟩
      · intro _
        exact ⟨e, rfl⟩
    · rcases hj : resp.jsonBody with _ | v
      · constructor
        · intro _
          exact Or.inr ⟨resp, rfl, hj⟩
        · intro _
          refine ⟨"JSONDecodeError", ?_⟩
          simp [fetch_response, hj]
      · constructor
        · rintro ⟨e, he⟩
          rw [show fetch_response (Except.ok resp) = Except.ok v by simp [fetch_response, hj]] at he
          exact Except.noConfusion he
        · rintro (⟨e, he⟩ | ⟨resp2, hr, hb⟩)
          · exact Except.noConfusion he
          · cases Except.ok.inj hr
            rw [hj] at hb
            exact Option.noConfusion hb
  · rw [try_all_providers_eq_loop]
    exact try_loop_errorLog_eq providers _ rr (sweep_start rr st) providers.length 0 st
  · intro e he
    rw [try_all_providers_eq_loop] at he
    exact try_loop_error_eq providers _ rr (sweep_start rr st) providers.length 0 st e he
  · intro e he
    rw [try_all_providers_eq_loop] at he ⊢
    exact try_loop_error_attempts_length providers _ rr (sweep_start rr st)
      providers.length 0 st e he

/-- C8 witness: with every transport failing, the concrete sweep's log is
the per-attempt provider/error list and both providers were attempted. -/
theorem C8_witness :
    (try_all_providers configTwo (fun idx => fetch_response (transportsDown idx)) false 0).errorLog
        = ((try_all_providers configTwo (fun idx => fetch_response (transportsDown idx)) false 0).attempts.filterMap
            (logEntry configTwo (fun idx => fetch_response (transportsDown idx)))) ∧
    (try_all_providers configTwo (fun idx => fetch_response (transportsDown idx)) false 0).attempts.length
        = configTwo.length := by
  obtain ⟨_, hb, _, hd⟩ := C8_failure_recovery configTwo transportsDown false 0
  exact ⟨hb, hd ⟨500, "All providers failed"⟩ rfl⟩

end UniApi
